import Mathlib

/-!
# evilclock: forging the timestamps of NTP server responses

A shallow embedding of `evilclock.go`.  Machine integers are mathematical
integers reduced explicitly to their width, `time.Time` is a pair of seconds
and nanoseconds, and the collaborators of the interception loop (packet
source, packet sink, time policy and packet serializer) are parameters.
-/

namespace Evilclock

/-! ## Machine integers -/

/-- Go conversion `uint64(x)`: the value of `x` in 64 unsigned bits. -/
def toUint64 (x : Int) : Nat := (x % 2 ^ 64).toNat

/-- Go conversion `int64(x)`: the value of `x` in 64 two's-complement bits. -/
def toInt64 (x : Int) : Int := (x + 2 ^ 63) % 2 ^ 64 - 2 ^ 63

/-- Go `a + b` on `uint64`. -/
def addU64 (a b : Nat) : Nat := (a + b) % 2 ^ 64

/-- Go `a - b` on `uint64`: the difference, wrapping below zero. -/
def subU64 (a b : Nat) : Nat := toUint64 ((a : Int) - (b : Int))

/-- Go `a << k` on `uint64`. -/
def shlU64 (a k : Nat) : Nat := (a * 2 ^ k) % 2 ^ 64

/-- Go `a * b` on `int64`. -/
def mulInt64 (a b : Int) : Int := toInt64 (a * b)

/-- Go unary `-a` on `int64`. -/
def negInt64 (a : Int) : Int := toInt64 (-a)

/-! ## The `time` package: durations and instants

The operations of Go's standard `time` package that the source calls, after
their documented behaviour.  A `time.Duration` is a count of nanoseconds held
in an `int64`; durations are integers here and are reduced to 64 bits where
the source computes one. -/

/-- Go `time.Second`. -/
def Second : Int := 1000000000

/-- Go `time.Hour`. -/
def Hour : Int := 3600 * Second

/-- Smallest value of a `time.Duration`. -/
def minDuration : Int := -(2 ^ 63)

/-- Largest value of a `time.Duration`. -/
def maxDuration : Int := 2 ^ 63 - 1

/-- An instant of `time.Time` without a monotonic reading: whole seconds since
1970-01-01T00:00:00Z and the nanoseconds within that second. -/
structure Time where
  sec : Int
  nsec : Int
deriving DecidableEq

/-- The nanosecond field of an instant is within one second. -/
def Time.wf (t : Time) : Prop := 0 ≤ t.nsec ∧ t.nsec < 1000000000

instance (t : Time) : Decidable t.wf := inferInstanceAs (Decidable (_ ∧ _))

/-- Nanoseconds from 1970-01-01T00:00:00Z to the instant, as an integer. -/
def Time.nanos (t : Time) : Int := t.sec * 1000000000 + t.nsec

/-- Days from 1970-01-01 to the given day of the proleptic Gregorian calendar. -/
def daysFromCivil (y m d : Int) : Int :=
  let y1 := if m ≤ 2 then y - 1 else y
  let era := y1 / 400
  let yoe := y1 - era * 400
  let mp := if m > 2 then m - 3 else m + 9
  let doy := (153 * mp + 2) / 5 + d - 1
  let doe := yoe * 365 + yoe / 4 - yoe / 100 + doy
  era * 146097 + doe - 719468

/-- Go `time.Date(year, month, day, hour, min, sec, nsec, time.UTC)` for
arguments within their calendar ranges. -/
def Date (year month day hour min sec nsec : Int) : Time :=
  ⟨daysFromCivil year month day * 86400 + hour * 3600 + min * 60 + sec, nsec⟩

/-- Go `t.Sub(u)` for instants without a monotonic reading: the duration
`t - u`, or the extreme duration when the difference does not fit. -/
def Time.Sub (t u : Time) : Int :=
  let d := (t.sec - u.sec) * 1000000000 + (t.nsec - u.nsec)
  if d < minDuration then minDuration
  else if maxDuration < d then maxDuration
  else d

/-- Go `t.Add(d)`: the seconds and the nanoseconds are advanced separately and
the nanoseconds are brought back within one second. -/
def Time.Add (t : Time) (d : Int) : Time :=
  let dsec := Int.tdiv d 1000000000
  let nsec := t.nsec + Int.tmod d 1000000000
  if nsec ≥ 1000000000 then ⟨t.sec + (dsec + 1), nsec - 1000000000⟩
  else if nsec < 0 then ⟨t.sec + (dsec - 1), nsec + 1000000000⟩
  else ⟨t.sec + dsec, nsec⟩

/-! ## Timestamp conversion (`evilclock.go`, lines 35-49) -/

/-- Source `NTPEpoch`. -/
def NTPEpoch : Time := Date 1900 1 1 0 0 0 0

/-- Source `TimeToNTPSeconds`. -/
def TimeToNTPSeconds (t : Time) : Nat :=
  let tt := t.Sub NTPEpoch
  let sec := Int.tdiv tt Second
  shlU64 (toUint64 sec) 32

/-- Source `NTPDelta`. -/
def NTPDelta (a b : Nat) : Int :=
  if a > b then toInt64 (subU64 a b)
  else mulInt64 (-1) (toInt64 (subU64 b a))

/-- Whole seconds elapsed from the NTP epoch to the instant. -/
def elapsedSeconds (t : Time) : Int := (t.nanos - NTPEpoch.nanos) / 1000000000

/-! ## Time-selection policy (`evilclock.go`, lines 51-56) -/

/-- Source `RandomTime`, line 53: the offset `delta` for the draw `r`, the
value that `rand.Int63n(int64(d))` returned. -/
def RandomTime.delta (d : Int) (r : Int) : Int :=
  toInt64 (toInt64 r - Int.tdiv d 2)

/-- Source `RandomTime`, with the random draw `r` and the reading `now` of the
clock as arguments. -/
def RandomTime (d : Int) (r : Int) (now : Time) : Time :=
  now.Add (RandomTime.delta d r)

/-! ## Packets and layers of the packet library

The packet library that decodes and serializes packets is a dependency and is
not part of the repository.  A decoded packet is its received bytes together
with its decoded layers: an IPv4 header, a UDP header and the NTP message with
its mode and its 64-bit timestamps. -/

/-- A byte sequence, every element below 256. -/
abbrev Bytes := List Nat

/-- Go `error` values. -/
structure Error where
  code : Nat
deriving DecidableEq

deriving instance DecidableEq for Except

/-- Modelled from the spec: the NTP message of the packet library
(`layers.NTP`), whose declaration is not in the repository: the mode, the
reference, origin, receive and transmit timestamps (64-bit fixed point), and
the other fields of the 48-byte NTP header. -/
structure NTP where
  LeapIndicator : Nat
  Version : Nat
  Mode : Nat
  Stratum : Nat
  Poll : Nat
  Precision : Nat
  RootDelay : Nat
  RootDispersion : Nat
  ReferenceID : Nat
  ReferenceTimestamp : Nat
  OriginTimestamp : Nat
  ReceiveTimestamp : Nat
  TransmitTimestamp : Nat
  ExtensionBytes : Bytes
deriving DecidableEq

/-- Modelled from the spec: the IPv4 header of the packet library
(`layers.IPv4`), whose declaration is not in the repository, for a header
without options; `Checksum` is the header checksum as decoded. -/
structure IPv4 where
  Version : Nat
  IHL : Nat
  TOS : Nat
  Length : Nat
  Id : Nat
  Flags : Nat
  FragOffset : Nat
  TTL : Nat
  Protocol : Nat
  Checksum : Nat
  SrcIP : Bytes
  DstIP : Bytes
deriving DecidableEq

/-- Modelled from the spec: the UDP header of the packet library
(`layers.UDP`), whose declaration is not in the repository; `Checksum` is the
checksum as decoded and `pseudoheader` the network layer registered for
computing it, which decoding leaves unset. -/
structure UDP where
  SrcPort : Nat
  DstPort : Nat
  Length : Nat
  Checksum : Nat
  pseudoheader : Option IPv4
deriving DecidableEq

/-- Modelled from the spec: a decoded layer of a packet, the structural view
of the received bytes (IPv4 header, UDP header, NTP message or raw payload). -/
inductive Layer where
  | ipv4 (l : IPv4)
  | udp (l : UDP)
  | ntp (l : NTP)
  | payload (b : Bytes)
deriving DecidableEq

/-- Modelled from the spec: a packet as the packet source delivers it
(`gopacket.Packet`, declared outside the repository): `data` is
`packet.Data()`, the bytes received, and `layers` is `packet.Layers()`. -/
structure Packet where
  data : Bytes
  layers : List Layer
deriving DecidableEq

/-- First NTP layer of a list of layers. -/
def findNTP : List Layer → Option NTP
  | [] => none
  | Layer.ntp l :: _ => some l
  | _ :: rest => findNTP rest

/-- Go `packet.Layer(layers.LayerTypeNTP)`: the first NTP layer, if any. -/
def Packet.ntpLayer (p : Packet) : Option NTP := findNTP p.layers

/-- The list of layers with its first NTP layer replaced. -/
def replaceNTP (n : NTP) : List Layer → List Layer
  | [] => []
  | Layer.ntp _ :: rest => Layer.ntp n :: rest
  | l :: rest => l :: replaceNTP n rest

/-- The packet after its NTP layer, held by pointer, was assigned `n`. -/
def Packet.setNTP (p : Packet) (n : NTP) : Packet :=
  { p with layers := replaceNTP n p.layers }

/-- Modelled from the spec: the options of the serializer
(`gopacket.SerializeOptions`, declared outside the repository). -/
structure SerializeOptions where
  FixLengths : Bool
  ComputeChecksums : Bool
deriving DecidableEq

/-! ## The patch step (`evilclock.go`, lines 90-94) -/

/-- Source `SpoofNTPResponse`, lines 90-94: the NTP layer after its three
remote timestamps were advanced by the delta to the instant `t`. -/
def patch (ntp : NTP) (t : Time) : NTP :=
  let delta := toUint64 (NTPDelta (TimeToNTPSeconds t) ntp.ReferenceTimestamp)
  let ntp := { ntp with ReferenceTimestamp := addU64 ntp.ReferenceTimestamp delta }
  let ntp := { ntp with TransmitTimestamp := addU64 ntp.TransmitTimestamp delta }
  { ntp with ReceiveTimestamp := addU64 ntp.ReceiveTimestamp delta }

/-- The timestamp fields of an NTP layer are 64-bit values. -/
def NTP.wf (n : NTP) : Prop :=
  n.ReferenceTimestamp < 2 ^ 64 ∧ n.OriginTimestamp < 2 ^ 64 ∧
    n.ReceiveTimestamp < 2 ^ 64 ∧ n.TransmitTimestamp < 2 ^ 64

instance (n : NTP) : Decidable n.wf := inferInstanceAs (Decidable (_ ∧ _))

/-! ## The interception loop (`evilclock.go`, lines 59-107) -/

/-- The collaborators of `SpoofNTPResponse`: the packets `NextPacket` delivers
in order and the error of the call after them, the result of the k-th call of
`WritePacketData` on given bytes (`none` is a nil error), the instant the k-th
call of `tf` returns, and `gopacket.SerializePacket` into the cleared buffer. -/
structure World where
  packets : List Packet
  sourceErr : Error
  sink : Nat → Bytes → Option Error
  tf : Nat → Time
  serialize : SerializeOptions → Packet → Except Error Bytes

/-- What the loop has done so far: the calls of `NextPacket` and of `tf` made,
and the arguments of the calls of `WritePacketData`, in order. -/
structure State where
  reads : Nat
  tfCalls : Nat
  writes : List Bytes
deriving DecidableEq

/-- Source `opts`, lines 62-64. -/
def opts : SerializeOptions := { FixLengths := false, ComputeChecksums := false }

/-- A call `pc.WritePacketData(data)`. -/
def writePacketData (w : World) (s : State) (data : Bytes) : Option Error × State :=
  (w.sink s.writes.length data, { s with writes := s.writes ++ [data] })

/-- Source `SpoofNTPResponse`, lines 70-104: the body of the loop for a packet
that `NextPacket` delivered; an error ends the loop.  The calls of
`log.Printf` do not bear on the result and are left out. -/
def iteration (w : World) (s : State) (packet : Packet) : Option Error × State :=
  match packet.ntpLayer with
  | none => writePacketData w s packet.data
  | some ntp =>
    if ntp.Mode ≠ 4 then writePacketData w s packet.data
    else
      let t := w.tf s.tfCalls
      let s := { s with tfCalls := s.tfCalls + 1 }
      let packet := packet.setNTP (patch ntp t)
      match w.serialize opts packet with
      | Except.error err => (some err, s)
      | Except.ok bytes => writePacketData w s bytes

/-- Source `SpoofNTPResponse`, lines 65-105: the loop over the packets that
the source still delivers. -/
def loop (w : World) : List Packet → State → Error × State
  | [], s => (w.sourceErr, { s with reads := s.reads + 1 })
  | packet :: rest, s =>
    match iteration w { s with reads := s.reads + 1 } packet with
    | (some err, s) => (err, s)
    | (none, s) => loop w rest s

/-- Source `SpoofNTPResponse`: the error returned and what was done. -/
def SpoofNTPResponse (w : World) : Error × State :=
  loop w w.packets { reads := 0, tfCalls := 0, writes := [] }

/-- The bytes the loop is to write for `packet` when `t` is the instant imposed
on it: the received bytes, or the serialization of the patched packet. -/
def forwardedForm (w : World) (t : Time) (packet : Packet) : Option Bytes :=
  match packet.ntpLayer with
  | none => some packet.data
  | some ntp =>
    if ntp.Mode ≠ 4 then some packet.data
    else
      match w.serialize opts (packet.setNTP (patch ntp t)) with
      | Except.error _ => none
      | Except.ok bytes => some bytes

/-! ## Serialization by the packet library

The serializer of the packet library is not part of the repository.  It is
modelled on the standard wire formats the spec names (IPv4, UDP and NTP
headers, Internet checksums): the layers are written from the last to the
first, each layer putting its header in front of the bytes produced so far. -/

/-- Big-endian encoding of `x` in `n` bytes. -/
def beBytes : Nat → Nat → Bytes
  | 0, _ => []
  | n + 1, x => beBytes n (x / 256) ++ [x % 256]

/-- Sum of the 16-bit big-endian words of the data, an odd last byte being the
high byte of a word. -/
def sum16 : Bytes → Nat
  | [] => 0
  | [a] => a * 256
  | a :: b :: rest => a * 256 + b + sum16 rest

/-- The carries of a sum below 2^32 folded back into 16 bits. -/
def fold16 (s : Nat) : Nat :=
  let s1 := s / 65536 + s % 65536
  s1 / 65536 + s1 % 65536

/-- Modelled from the spec: the Internet checksum of the data (the checksum
of IPv4 and UDP headers), starting from the sum `csum`; the packet library
that computes it is not in the repository. -/
def tcpipChecksum (data : Bytes) (csum : Nat) : Nat :=
  65535 - fold16 (csum + sum16 data)

/-- Modelled from the spec: the 20 bytes of an IPv4 header without options
carrying the checksum `c`, in the standard layout. -/
def IPv4.header (ip : IPv4) (c : Nat) : Bytes :=
  [(ip.Version * 16 + ip.IHL) % 256, ip.TOS % 256] ++ beBytes 2 ip.Length ++ beBytes 2 ip.Id ++
    beBytes 2 (ip.Flags * 8192 + ip.FragOffset) ++ [ip.TTL % 256, ip.Protocol % 256] ++
    beBytes 2 c ++ ip.SrcIP ++ ip.DstIP

/-- Modelled from the spec: the 8 bytes of a UDP header carrying the checksum
`c`, in the standard layout. -/
def UDP.header (u : UDP) (c : Nat) : Bytes :=
  beBytes 2 u.SrcPort ++ beBytes 2 u.DstPort ++ beBytes 2 u.Length ++ beBytes 2 c

/-- Modelled from the spec: the 48 bytes of an NTP header in the standard
layout: byte 0 packs leap indicator, version and the 3-bit mode, and the four
timestamps are 64-bit big-endian fields. -/
def NTP.header (n : NTP) : Bytes :=
  [(n.LeapIndicator % 4) * 64 + (n.Version % 8) * 8 + n.Mode % 8, n.Stratum % 256,
    n.Poll % 256, n.Precision % 256] ++
    beBytes 4 n.RootDelay ++ beBytes 4 n.RootDispersion ++ beBytes 4 n.ReferenceID ++
    beBytes 8 n.ReferenceTimestamp ++ beBytes 8 n.OriginTimestamp ++
    beBytes 8 n.ReceiveTimestamp ++ beBytes 8 n.TransmitTimestamp

/-- Modelled from the spec: the sum the addresses of the IPv4 pseudo-header
contribute to a UDP checksum. -/
def IPv4.pseudoheaderChecksum (ip : IPv4) : Nat := sum16 ip.SrcIP + sum16 ip.DstIP

/-- Modelled from the spec: the serializer of one layer (method `SerializeTo`
of the packet library, not in the repository); `b` holds the bytes of the
layers after it.  A checksum is recomputed only when `ComputeChecksums` is
set, which for UDP needs a registered network layer, and otherwise the decoded
`Checksum` field is written back. -/
def Layer.SerializeTo (o : SerializeOptions) : Layer → Bytes → Except Error Bytes
  | Layer.payload p, b => Except.ok (p ++ b)
  | Layer.ntp n, b => Except.ok (n.header ++ b ++ n.ExtensionBytes)
  | Layer.udp u, b =>
    let length := if o.FixLengths then (b.length + 8) % 65536 else u.Length
    let u := { u with Length := length }
    if o.ComputeChecksums then
      match u.pseudoheader with
      | none => Except.error ⟨1⟩
      | some ip =>
        let all := u.header 0 ++ b
        let csum := ip.pseudoheaderChecksum + 17 + all.length % 65536 + all.length / 65536
        Except.ok (u.header (tcpipChecksum all csum) ++ b)
    else Except.ok (u.header u.Checksum ++ b)
  | Layer.ipv4 ip, b =>
    let ip := if o.FixLengths then { ip with IHL := 5, Length := (b.length + 20) % 65536 } else ip
    if o.ComputeChecksums then Except.ok (ip.header (tcpipChecksum (ip.header 0) 0) ++ b)
    else Except.ok (ip.header ip.Checksum ++ b)

/-- Modelled from the spec: `gopacket.SerializeLayers` into a cleared buffer,
a function of the packet library that is not in the repository. -/
def SerializeLayers (o : SerializeOptions) : List Layer → Except Error Bytes
  | [] => Except.ok []
  | l :: rest =>
    match SerializeLayers o rest with
    | Except.error err => Except.error err
    | Except.ok b => l.SerializeTo o b

/-- Modelled from the spec: `gopacket.SerializePacket`, the re-serialization
of a decoded packet, a function of the packet library that is not in the
repository. -/
def SerializePacket (o : SerializeOptions) (p : Packet) : Except Error Bytes :=
  SerializeLayers o p.layers

/-- Modelled from the spec: the IPv4 header checksum of a wire packet is
valid: the ones-complement sum of the 20 header bytes is all ones. -/
def ipChecksumValid (wire : Bytes) : Prop :=
  fold16 (sum16 (wire.take 20)) = 65535

/-- Modelled from the spec: the UDP checksum of a wire packet (an IPv4 header
of 20 bytes, then the UDP segment) is valid for its payload: the field is
zero, meaning no checksum, or the ones-complement sum of pseudo-header and
segment is all ones. -/
def udpChecksumValid (wire : Bytes) : Prop :=
  (wire.drop 26).take 2 = [0, 0] ∨
    fold16 (sum16 ((wire.drop 12).take 8) + 17 + (wire.drop 20).length
      + sum16 (wire.drop 20)) = 65535

instance (wire : Bytes) : Decidable (ipChecksumValid wire) :=
  inferInstanceAs (Decidable (_ = _))

instance (wire : Bytes) : Decidable (udpChecksumValid wire) :=
  inferInstanceAs (Decidable (_ ∨ _))

/-! ## Scenario packets -/

/-- The NTP response of the end-to-end scenario: mode 4, reference timestamp
2023-01-01T00:00:00Z. -/
def responseNTP : NTP :=
  { LeapIndicator := 0, Version := 4, Mode := 4, Stratum := 2, Poll := 6, Precision := 233,
    RootDelay := 0, RootDispersion := 0, ReferenceID := 2130706433,
    ReferenceTimestamp := 3881520000 * 2 ^ 32,
    OriginTimestamp := 3881520010 * 2 ^ 32,
    ReceiveTimestamp := 3881520011 * 2 ^ 32,
    TransmitTimestamp := 3881520011 * 2 ^ 32 + 2 ^ 31,
    ExtensionBytes := [] }

/-- An NTP client request, mode 3. -/
def requestNTP : NTP :=
  { LeapIndicator := 0, Version := 4, Mode := 3, Stratum := 0, Poll := 6, Precision := 233,
    RootDelay := 0, RootDispersion := 0, ReferenceID := 0,
    ReferenceTimestamp := 0, OriginTimestamp := 0, ReceiveTimestamp := 0,
    TransmitTimestamp := 3881520010 * 2 ^ 32,
    ExtensionBytes := [] }

/-- The IPv4 layer of the scenario response, 192.0.2.1 to 192.0.2.2, with the
header checksum 0xa469 that verifies. -/
def responseIPv4 : IPv4 :=
  { Version := 4, IHL := 5, TOS := 0, Length := 76, Id := 4660, Flags := 2, FragOffset := 0,
    TTL := 64, Protocol := 17, Checksum := 42089,
    SrcIP := [192, 0, 2, 1], DstIP := [192, 0, 2, 2] }

/-- The UDP layer of the scenario response, port 123 to port 123, with the
checksum 0x8506 that verifies for the response. -/
def responseUDP : UDP :=
  { SrcPort := 123, DstPort := 123, Length := 56, Checksum := 34054, pseudoheader := none }

/-- The scenario response as received: 20 bytes of IPv4 header, 8 bytes of UDP
header and 48 bytes of NTP. -/
def responsePacket : Packet :=
  { data :=
      [69, 0, 0, 76, 18, 52, 64, 0, 64, 17, 164, 105, 192, 0, 2, 1, 192, 0, 2, 2,
        0, 123, 0, 123, 0, 56, 133, 6,
        36, 2, 6, 233, 0, 0, 0, 0, 0, 0, 0, 0, 127, 0, 0, 1,
        231, 91, 75, 128, 0, 0, 0, 0, 231, 91, 75, 138, 0, 0, 0, 0,
        231, 91, 75, 139, 0, 0, 0, 0, 231, 91, 75, 139, 128, 0, 0, 0],
    layers := [Layer.ipv4 responseIPv4, Layer.udp responseUDP, Layer.ntp responseNTP] }

/-- A client request as received, mode 3. -/
def requestPacket : Packet :=
  { data :=
      [69, 0, 0, 76, 18, 53, 64, 0, 64, 17, 164, 104, 192, 0, 2, 2, 192, 0, 2, 1,
        0, 123, 0, 123, 0, 56, 0, 0, 35, 0, 6, 233]
        ++ List.replicate 36 0 ++ [231, 91, 75, 138, 0, 0, 0, 0],
    layers :=
      [Layer.ipv4
          { responseIPv4 with
            Id := 4661, Checksum := 42088, SrcIP := [192, 0, 2, 2], DstIP := [192, 0, 2, 1] },
        Layer.udp { responseUDP with Checksum := 0 }, Layer.ntp requestNTP] }

/-- A diverted packet in which no NTP layer was decoded. -/
def plainPacket : Packet :=
  { data :=
      [69, 0, 0, 31, 18, 54, 64, 0, 64, 17, 0, 0, 192, 0, 2, 2, 192, 0, 2, 1,
        0, 123, 0, 123, 0, 11, 0, 0, 1, 2, 3],
    layers :=
      [Layer.ipv4
          { responseIPv4 with
            Id := 4662, Length := 31, Checksum := 0,
            SrcIP := [192, 0, 2, 2], DstIP := [192, 0, 2, 1] },
        Layer.udp { responseUDP with Length := 11, Checksum := 0 }, Layer.payload [1, 2, 3]] }

/-- The end-to-end scenario: the source delivers the response and then fails,
the sink accepts every packet, the time policy always returns
2030-06-15T12:00:00Z. -/
def scenarioWorld : World :=
  { packets := [responsePacket], sourceErr := ⟨7⟩, sink := fun _ _ => none,
    tf := fun _ => Date 2030 6 15 12 0 0 0, serialize := SerializePacket }

/-- A run of four packets, two of them responses, with a sink that never
fails and a time policy whose k-th call returns noon of the k-th day after
2030-06-15. -/
def mixedWorld : World :=
  { packets := [responsePacket, requestPacket, responsePacket, plainPacket],
    sourceErr := ⟨7⟩, sink := fun _ _ => none,
    tf := fun k => Date 2030 6 (15 + (k : Int)) 12 0 0 0, serialize := SerializePacket }

/-- The same run with a sink that fails on its second write. -/
def refusingWorld : World :=
  { mixedWorld with sink := fun k _ => if k = 1 then some ⟨9⟩ else none }

/-- The packet is an NTP server response, the kind the loop patches. -/
def isResponse (packet : Packet) : Bool :=
  match packet.ntpLayer with
  | none => false
  | some ntp => decide (ntp.Mode = 4)

/-! # Theorems -/

set_option maxRecDepth 100000

/-! ## Arithmetic lemmas -/

theorem tdiv_tmod_spec (d b : Int) (hb : 0 < b) :
    b * Int.tdiv d b + Int.tmod d b = d ∧ -b < Int.tmod d b ∧ Int.tmod d b < b ∧
      (0 ≤ d → Int.tdiv d b = d / b) ∧ (d < 0 → Int.tdiv d b = -((-d) / b)) := by
  have hsum := Int.tdiv_add_tmod d b
  rcases le_or_lt 0 d with h | h
  · have e1 : Int.tdiv d b = d / b := Int.tdiv_eq_ediv h hb.le
    have e2 : Int.tmod d b = d % b := Int.tmod_eq_emod h hb.le
    have h3 := Int.emod_nonneg d hb.ne'
    have h4 := Int.emod_lt_of_pos d hb
    refine ⟨hsum, ?_, ?_, fun _ => e1, fun h5 => absurd h5 (not_lt.mpr h)⟩ <;> omega
  · have h1 : 0 ≤ -d := by omega
    have e1 : Int.tdiv d b = -((-d) / b) := by
      rw [← Int.tdiv_eq_ediv h1 hb.le, Int.neg_tdiv, neg_neg]
    have h3 := Int.emod_nonneg (-d) hb.ne'
    have h4 := Int.emod_lt_of_pos (-d) hb
    have h5 := Int.ediv_add_emod (-d) b
    rw [e1] at hsum
    have h6 : b * -(-d / b) = -(b * (-d / b)) := by ring
    rw [h6] at hsum
    refine ⟨?_, ?_, ?_, fun h7 => absurd h (not_lt.mpr h7), fun _ => e1⟩
    · rw [e1, h6]; exact hsum
    · omega
    · omega

theorem toInt64_of_range (x : Int) (h1 : -(2 ^ 63) ≤ x) (h2 : x < 2 ^ 63) : toInt64 x = x := by
  unfold toInt64; omega

theorem toInt64_range (x : Int) : -(2 ^ 63) ≤ toInt64 x ∧ toInt64 x < 2 ^ 63 := by
  unfold toInt64; omega

theorem toUint64_lt (x : Int) : toUint64 x < 2 ^ 64 := by
  unfold toUint64; omega

theorem toUint64_cast (x : Int) : ((toUint64 x : Nat) : Int) = x % 2 ^ 64 := by
  unfold toUint64; omega

theorem NTPEpoch_eq : NTPEpoch = ⟨-2208988800, 0⟩ := by decide

theorem Time.Add_nanos (t : Time) (d : Int) (ht : t.wf) :
    (t.Add d).nanos = t.nanos + d ∧ (t.Add d).wf := by
  obtain ⟨hsum, hlo, hhi, -, -⟩ := tdiv_tmod_spec d 1000000000 (by norm_num)
  obtain ⟨h0, h1⟩ := ht
  unfold Time.Add
  simp only []
  split_ifs with c1 c2
  · simp only [Time.nanos, Time.wf]; omega
  · simp only [Time.nanos, Time.wf]; omega
  · simp only [Time.nanos, Time.wf]; omega

/-! ## Timestamp conversion -/

theorem NTPDelta_cases (a b : Nat) (ha : a < 2 ^ 64) (hb : b < 2 ^ 64) :
    (b < a → NTPDelta a b = toInt64 ((a : Int) - b)) ∧
      (a ≤ b → NTPDelta a b = toInt64 (-(toInt64 ((b : Int) - a)))) := by
  constructor
  · intro h
    have e : ((toUint64 ((a : Int) - b) : Nat) : Int) = (a : Int) - b := by
      rw [toUint64_cast]; omega
    simp only [NTPDelta, subU64, if_pos h, e]
  · intro h
    have e : ((toUint64 ((b : Int) - a) : Nat) : Int) = (b : Int) - a := by
      rw [toUint64_cast]; omega
    have hn : ¬ a > b := by omega
    simp only [NTPDelta, subU64, mulInt64, if_neg hn, e]
    congr 1
    ring

theorem NTPDelta_mod (a b : Nat) (ha : a < 2 ^ 64) (hb : b < 2 ^ 64) :
    (-(2 ^ 63) ≤ NTPDelta a b ∧ NTPDelta a b < 2 ^ 63) ∧
      (NTPDelta a b - ((a : Int) - b)) % 2 ^ 64 = 0 ∧
      (NTPDelta a b = (a : Int) - b ↔ -(2 ^ 63) ≤ (a : Int) - b ∧ (a : Int) - b < 2 ^ 63) := by
  obtain ⟨h1, h2⟩ := NTPDelta_cases a b ha hb
  rcases Nat.lt_or_ge b a with h | h
  · rw [h1 h]; unfold toInt64; omega
  · rw [h2 h]; unfold toInt64; omega

/-- C5 (counterexample): for a = 4116744000 * 2^32, the NTP value of
2030-06-15T12:00:00Z, and b = 0, both of them uint64 values, the conversion to
int64 wraps: NTPDelta returns a - 2^64, a negative number, and not the integer
a - b. -/
theorem NTPDelta_not_exact :
    TimeToNTPSeconds (Date 2030 6 15 12 0 0 0) = 4116744000 * 2 ^ 32 ∧
      (4116744000 * 2 ^ 32 : Nat) < 2 ^ 64 ∧ (0 : Nat) < 2 ^ 64 ∧
      NTPDelta (4116744000 * 2 ^ 32) 0 = 4116744000 * 2 ^ 32 - 2 ^ 64 ∧
      NTPDelta (4116744000 * 2 ^ 32) 0 < 0 ∧
      NTPDelta (4116744000 * 2 ^ 32) 0
        ≠ ((4116744000 * 2 ^ 32 : Nat) : Int) - ((0 : Nat) : Int) := by
  decide

/-- C5 (amended): for uint64 a and b the unsigned subtraction NTPDelta performs
never wraps (a - b is taken when a > b and b - a otherwise), the result is an
int64 congruent to a - b modulo 2^64, and it is the integer a - b exactly when
-2^63 <= a - b < 2^63. -/
theorem NTPDelta_spec (a b : Nat) (ha : a < 2 ^ 64) (hb : b < 2 ^ 64) :
    (a > b → ((subU64 a b : Nat) : Int) = (a : Int) - b) ∧
      (¬ a > b → ((subU64 b a : Nat) : Int) = (b : Int) - a) ∧
      (-(2 ^ 63) ≤ NTPDelta a b ∧ NTPDelta a b < 2 ^ 63) ∧
      (NTPDelta a b - ((a : Int) - b)) % 2 ^ 64 = 0 ∧
      (NTPDelta a b = (a : Int) - b ↔ -(2 ^ 63) ≤ (a : Int) - b ∧ (a : Int) - b < 2 ^ 63) := by
  refine ⟨?_, ?_, NTPDelta_mod a b ha hb⟩
  · intro h; unfold subU64; rw [toUint64_cast]; omega
  · intro h; unfold subU64; rw [toUint64_cast]; omega

/-- C5 (witness): the amended statement at a = 4116744000 * 2^32, b = 0: the
result is congruent to a - b modulo 2^64. -/
theorem NTPDelta_spec_witness :
    (NTPDelta (4116744000 * 2 ^ 32) 0
      - (((4116744000 * 2 ^ 32 : Nat) : Int) - ((0 : Nat) : Int))) % 2 ^ 64 = 0 :=
  (NTPDelta_spec (4116744000 * 2 ^ 32) 0 (by decide) (by decide)).2.2.2.1

/-- C6: NTPDelta(a, b) is the int64 negation of NTPDelta(b, a), and
NTPDelta(a, a) is 0, for all uint64 a and b. -/
theorem NTPDelta_antisymm (a b : Nat) (ha : a < 2 ^ 64) (hb : b < 2 ^ 64) :
    NTPDelta a b = negInt64 (NTPDelta b a) ∧ NTPDelta a a = 0 := by
  obtain ⟨h1, h2⟩ := NTPDelta_cases a b ha hb
  obtain ⟨h3, h4⟩ := NTPDelta_cases b a hb ha
  obtain ⟨-, h5⟩ := NTPDelta_cases a a ha ha
  constructor
  · rcases Nat.lt_trichotomy a b with h | h | h
    · rw [h2 h.le, h3 h]; unfold negInt64; rfl
    · subst h; rw [h2 le_rfl]; unfold negInt64 toInt64; omega
    · rw [h1 h, h4 h.le]; unfold negInt64 toInt64; omega
  · rw [h5 le_rfl]; unfold toInt64; omega

/-- C6 (witness): the antisymmetry at a = 5, b = 2^64 - 1. -/
theorem NTPDelta_antisymm_witness :
    NTPDelta 5 (2 ^ 64 - 1) = negInt64 (NTPDelta (2 ^ 64 - 1) 5) ∧ NTPDelta 5 5 = 0 :=
  NTPDelta_antisymm 5 (2 ^ 64 - 1) (by decide) (by decide)

/-- C7: for an instant t at or after the NTP epoch whose whole elapsed seconds
s are below 2^32, TimeToNTPSeconds(t) is s * 2^32: its high 32 bits are s and
its low 32 bits are 0, whatever the sub-second part of t. -/
theorem TimeToNTPSeconds_spec (t : Time) (hwf : t.wf) (hge : NTPEpoch.nanos ≤ t.nanos)
    (hlt : elapsedSeconds t < 2 ^ 32) :
    (TimeToNTPSeconds t : Int) = elapsedSeconds t * 2 ^ 32 ∧
      ((TimeToNTPSeconds t / 2 ^ 32 : Nat) : Int) = elapsedSeconds t ∧
      TimeToNTPSeconds t % 2 ^ 32 = 0 := by
  obtain ⟨w0, w1⟩ := hwf
  have hs : Time.Sub t NTPEpoch = t.nanos - NTPEpoch.nanos := by
    have e1 : NTPEpoch.sec = -2208988800 := by decide
    have e2 : NTPEpoch.nsec = 0 := by decide
    simp only [Time.Sub, Time.nanos, minDuration, maxDuration, elapsedSeconds, e1, e2]
      at hge hlt ⊢
    split_ifs <;> omega
  have hd : Int.tdiv (Time.Sub t NTPEpoch) Second = elapsedSeconds t := by
    rw [hs]
    exact (tdiv_tmod_spec _ Second (by decide)).2.2.2.1 (by omega)
  have h0 : 0 ≤ elapsedSeconds t := by
    unfold elapsedSeconds; omega
  have hv : (TimeToNTPSeconds t : Int) = elapsedSeconds t * 2 ^ 32 := by
    simp only [TimeToNTPSeconds, hd, shlU64]
    push_cast
    rw [toUint64_cast]
    omega
  refine ⟨hv, ?_, ?_⟩ <;> omega

/-- C7 (witness): 2000-01-01T00:00:00Z gives 3155673600 in the high 32 bits and
0 in the low 32 bits. -/
theorem TimeToNTPSeconds_spec_witness :
    elapsedSeconds (Date 2000 1 1 0 0 0 0) = 3155673600 ∧
      (TimeToNTPSeconds (Date 2000 1 1 0 0 0 0) : Int)
        = elapsedSeconds (Date 2000 1 1 0 0 0 0) * 2 ^ 32 ∧
      ((TimeToNTPSeconds (Date 2000 1 1 0 0 0 0) / 2 ^ 32 : Nat) : Int)
        = elapsedSeconds (Date 2000 1 1 0 0 0 0) ∧
      TimeToNTPSeconds (Date 2000 1 1 0 0 0 0) % 2 ^ 32 = 0 :=
  ⟨by decide, TimeToNTPSeconds_spec (Date 2000 1 1 0 0 0 0) (by decide) (by decide) (by decide)⟩

/-! ## Time-selection policy -/

/-- C10 (counterexample): for d = 3 ns and the draw r = 2, the offset is 1,
which is not below the truncated d/2 = 1, and the returned instant is not
before now + d/2. -/
theorem RandomTime_upper_bound_reached :
    (0 : Int) < 3 ∧ (0 : Int) ≤ 2 ∧ (2 : Int) < 3 ∧
      RandomTime.delta 3 2 = 1 ∧ Int.tdiv 3 2 = 1 ∧
      ¬ (RandomTime.delta 3 2 < Int.tdiv 3 2) ∧
      ¬ ((RandomTime 3 2 (Date 2000 1 1 0 0 0 0)).nanos
          < (Date 2000 1 1 0 0 0 0).nanos + Int.tdiv 3 2) := by
  decide

/-- C10 (amended): for a duration 0 < d < 2^63 and a draw 0 <= r < d, the
offset RandomTime adds to the current time is r - d/2 (truncating division)
and lies in [-d/2, d - d/2): within [-d/2, d/2) when d is even, within
[-d/2, d/2] when d is odd; the returned instant is now plus that offset. -/
theorem RandomTime_interval (d r : Int) (now : Time) (hd : 0 < d) (hd64 : d < 2 ^ 63)
    (hr0 : 0 ≤ r) (hr : r < d) (hnow : now.wf) :
    RandomTime.delta d r = r - Int.tdiv d 2 ∧
      -(Int.tdiv d 2) ≤ RandomTime.delta d r ∧
      RandomTime.delta d r < d - Int.tdiv d 2 ∧
      (d % 2 = 0 → RandomTime.delta d r < Int.tdiv d 2) ∧
      RandomTime.delta d r ≤ Int.tdiv d 2 ∧
      (RandomTime d r now).nanos = now.nanos + RandomTime.delta d r ∧
      now.nanos - Int.tdiv d 2 ≤ (RandomTime d r now).nanos ∧
      (RandomTime d r now).nanos < now.nanos + (d - Int.tdiv d 2) := by
  have hdiv : Int.tdiv d 2 = d / 2 :=
    (tdiv_tmod_spec d 2 (by norm_num)).2.2.2.1 hd.le
  have hδ : RandomTime.delta d r = r - Int.tdiv d 2 := by
    unfold RandomTime.delta
    rw [toInt64_of_range r (by omega) (by omega), hdiv]
    exact toInt64_of_range _ (by omega) (by omega)
  have hn := (Time.Add_nanos now (RandomTime.delta d r) hnow).1
  have hR : (RandomTime d r now).nanos = now.nanos + RandomTime.delta d r := hn
  rw [hR, hδ, hdiv]
  refine ⟨rfl, ?_, ?_, ?_, ?_, rfl, ?_, ?_⟩ <;> omega

/-- C10 (witness): the amended statement for the 24 hour window of `main` and
the draw r = 0. -/
theorem RandomTime_interval_witness :
    RandomTime.delta (24 * Hour) 0 = 0 - Int.tdiv (24 * Hour) 2 ∧
      (RandomTime (24 * Hour) 0 (Date 2000 1 1 0 0 0 0)).nanos
        = (Date 2000 1 1 0 0 0 0).nanos + RandomTime.delta (24 * Hour) 0 :=
  have h := RandomTime_interval (24 * Hour) 0 (Date 2000 1 1 0 0 0 0)
    (by decide) (by decide) (by decide) (by decide) (by decide)
  ⟨h.1, h.2.2.2.2.2.1⟩

/-! ## The patch step -/

theorem TimeToNTPSeconds_lt (t : Time) : TimeToNTPSeconds t < 2 ^ 64 := by
  simp only [TimeToNTPSeconds, shlU64]
  exact Nat.mod_lt _ (by norm_num)

theorem add_delta_eq (n r : Nat) (hn : n < 2 ^ 64) (hr : r < 2 ^ 64) :
    addU64 r (toUint64 (NTPDelta n r)) = n := by
  have h := (NTPDelta_mod n r hn hr).2.1
  have hc := toUint64_cast (NTPDelta n r)
  unfold addU64
  omega

/-- C1: whatever the original referenceTimestamp R (a uint64) and the target
instant T, the patch step leaves referenceTimestamp equal to
TimeToNTPSeconds(T), computed as R + uint64(NTPDelta(TimeToNTPSeconds(T), R))
in wrapping 64-bit arithmetic. -/
theorem patch_referenceTimestamp (ntp : NTP) (T : Time)
    (hR : ntp.ReferenceTimestamp < 2 ^ 64) :
    (patch ntp T).ReferenceTimestamp
        = addU64 ntp.ReferenceTimestamp
            (toUint64 (NTPDelta (TimeToNTPSeconds T) ntp.ReferenceTimestamp)) ∧
      (patch ntp T).ReferenceTimestamp = TimeToNTPSeconds T :=
  ⟨rfl, add_delta_eq _ _ (TimeToNTPSeconds_lt T) hR⟩

/-- C1 (witness): R = 2023-01-01T00:00:00Z (3881520000 << 32) in a mode-4
message and T = 2030-06-15T12:00:00Z give the reference timestamp
4116744000 << 32. -/
theorem patch_referenceTimestamp_witness :
    responseNTP.Mode = 4 ∧ responseNTP.ReferenceTimestamp = 3881520000 * 2 ^ 32 ∧
      TimeToNTPSeconds (Date 2030 6 15 12 0 0 0) = 4116744000 * 2 ^ 32 ∧
      (patch responseNTP (Date 2030 6 15 12 0 0 0)).ReferenceTimestamp
        = TimeToNTPSeconds (Date 2030 6 15 12 0 0 0) :=
  ⟨by decide, by decide, by decide,
    (patch_referenceTimestamp responseNTP (Date 2030 6 15 12 0 0 0) (by decide)).2⟩

theorem findNTP_replaceNTP (n m : NTP) (ls : List Layer) (h : findNTP ls = some n) :
    findNTP (replaceNTP m ls) = some m ∧
      List.Forall₂ (fun a b => a = b ∨ (a = Layer.ntp n ∧ b = Layer.ntp m)) ls
        (replaceNTP m ls) := by
  induction ls with
  | nil => simp [findNTP] at h
  | cons l rest ih =>
    have hrefl : ∀ xs : List Layer,
        List.Forall₂ (fun a b => a = b ∨ (a = Layer.ntp n ∧ b = Layer.ntp m)) xs xs := by
      intro xs
      induction xs with
      | nil => exact List.Forall₂.nil
      | cons x xs ihx => exact List.Forall₂.cons (Or.inl rfl) ihx
    cases l with
    | ntp k =>
      simp only [findNTP, Option.some.injEq] at h
      subst h
      exact ⟨rfl, List.Forall₂.cons (Or.inr ⟨rfl, rfl⟩) (hrefl rest)⟩
    | ipv4 k =>
      simp only [findNTP] at h
      exact ⟨(ih h).1, List.Forall₂.cons (Or.inl rfl) (ih h).2⟩
    | udp k =>
      simp only [findNTP] at h
      exact ⟨(ih h).1, List.Forall₂.cons (Or.inl rfl) (ih h).2⟩
    | payload k =>
      simp only [findNTP] at h
      exact ⟨(ih h).1, List.Forall₂.cons (Or.inl rfl) (ih h).2⟩

/-- C2: the patch step adds one delta d = NTPDelta(TimeToNTPSeconds(T),
referenceTimestamp) modulo 2^64 to referenceTimestamp, receiveTimestamp and
transmitTimestamp, leaves every other field of the message, the received bytes
and the other layers of the packet as they were, and so keeps
receive - transmit modulo 2^64. -/
theorem patch_frame (packet : Packet) (ntp : NTP) (T : Time)
    (hl : packet.ntpLayer = some ntp) (hm : ntp.Mode = 4) (hwf : ntp.wf) :
    ∃ d : Nat, d = toUint64 (NTPDelta (TimeToNTPSeconds T) ntp.ReferenceTimestamp) ∧
      (patch ntp T).ReferenceTimestamp = (ntp.ReferenceTimestamp + d) % 2 ^ 64 ∧
      (patch ntp T).ReceiveTimestamp = (ntp.ReceiveTimestamp + d) % 2 ^ 64 ∧
      (patch ntp T).TransmitTimestamp = (ntp.TransmitTimestamp + d) % 2 ^ 64 ∧
      (patch ntp T).Mode = 4 ∧
      (patch ntp T).OriginTimestamp = ntp.OriginTimestamp ∧
      (patch ntp T).LeapIndicator = ntp.LeapIndicator ∧
      (patch ntp T).Version = ntp.Version ∧
      (patch ntp T).Stratum = ntp.Stratum ∧
      (patch ntp T).Poll = ntp.Poll ∧
      (patch ntp T).Precision = ntp.Precision ∧
      (patch ntp T).RootDelay = ntp.RootDelay ∧
      (patch ntp T).RootDispersion = ntp.RootDispersion ∧
      (patch ntp T).ReferenceID = ntp.ReferenceID ∧
      (patch ntp T).ExtensionBytes = ntp.ExtensionBytes ∧
      subU64 (patch ntp T).ReceiveTimestamp (patch ntp T).TransmitTimestamp
        = subU64 ntp.ReceiveTimestamp ntp.TransmitTimestamp ∧
      (packet.setNTP (patch ntp T)).data = packet.data ∧
      (packet.setNTP (patch ntp T)).ntpLayer = some (patch ntp T) ∧
      List.Forall₂ (fun a b => a = b ∨ (a = Layer.ntp ntp ∧ b = Layer.ntp (patch ntp T)))
        packet.layers (packet.setNTP (patch ntp T)).layers := by
  obtain ⟨h1, h2, h3, h4⟩ := hwf
  have hf := findNTP_replaceNTP ntp (patch ntp T) packet.layers hl
  refine ⟨_, rfl, rfl, rfl, rfl, hm, rfl, rfl, rfl, rfl, rfl, rfl, rfl, rfl, rfl, rfl, ?_,
    rfl, hf.1, hf.2⟩
  have hd := toUint64_lt (NTPDelta (TimeToNTPSeconds T) ntp.ReferenceTimestamp)
  simp only [patch, subU64, addU64, toUint64]
  omega

/-- C2 (witness): the frame statement for the scenario response and
T = 2030-06-15T12:00:00Z. -/
theorem patch_frame_witness :
    subU64 (patch responseNTP (Date 2030 6 15 12 0 0 0)).ReceiveTimestamp
        (patch responseNTP (Date 2030 6 15 12 0 0 0)).TransmitTimestamp
      = subU64 responseNTP.ReceiveTimestamp responseNTP.TransmitTimestamp ∧
      (patch responseNTP (Date 2030 6 15 12 0 0 0)).OriginTimestamp
        = responseNTP.OriginTimestamp := by
  obtain ⟨d, -, -, -, -, -, h5, -, -, -, -, -, -, -, -, -, h15, -⟩ :=
    patch_frame responsePacket responseNTP (Date 2030 6 15 12 0 0 0)
      (by decide) (by decide) (by decide)
  exact ⟨h15, h5⟩

/-! ## The interception loop -/

/-- C3: for a packet without NTP layer, and for a packet whose NTP mode is not
4, the loop body hands WritePacketData exactly the bytes received, as its only
write, and does not call tf. -/
theorem passthrough (w : World) (s : State) (packet : Packet)
    (h : packet.ntpLayer = none ∨ ∃ ntp, packet.ntpLayer = some ntp ∧ ntp.Mode ≠ 4) :
    (iteration w s packet).2.writes = s.writes ++ [packet.data] ∧
      (iteration w s packet).2.tfCalls = s.tfCalls ∧
      (iteration w s packet).1 = w.sink s.writes.length packet.data := by
  rcases h with h | ⟨ntp, h, hm⟩
  · simp [iteration, h, writePacketData]
  · simp [iteration, h, writePacketData, hm]

/-- C3 (witness): a mode-3 request is written back byte for byte and tf is
not called. -/
theorem passthrough_witness :
    (iteration scenarioWorld ⟨1, 0, []⟩ requestPacket).2.writes = [] ++ [requestPacket.data] ∧
      (iteration scenarioWorld ⟨1, 0, []⟩ requestPacket).2.tfCalls = 0 :=
  have h := passthrough scenarioWorld ⟨1, 0, []⟩ requestPacket
    (Or.inr ⟨requestNTP, by decide, by decide⟩)
  ⟨h.1, h.2.1⟩

theorem iteration_cases (w : World) (s : State) (packet : Packet) :
    (∃ data, forwardedForm w (w.tf s.tfCalls) packet = some data ∧
        (iteration w s packet).1 = w.sink s.writes.length data ∧
        (iteration w s packet).2.writes = s.writes ++ [data] ∧
        (iteration w s packet).2.reads = s.reads ∧
        (iteration w s packet).2.tfCalls
          = s.tfCalls + (if isResponse packet then 1 else 0)) ∨
      (∃ ntp e, packet.ntpLayer = some ntp ∧ ntp.Mode = 4 ∧
        w.serialize opts (packet.setNTP (patch ntp (w.tf s.tfCalls))) = Except.error e ∧
        forwardedForm w (w.tf s.tfCalls) packet = none ∧
        iteration w s packet = (some e, { s with tfCalls := s.tfCalls + 1 })) := by
  cases hl : packet.ntpLayer with
  | none =>
    left
    exact ⟨packet.data, by simp [forwardedForm, hl], by simp [iteration, hl, writePacketData],
      by simp [iteration, hl, writePacketData], by simp [iteration, hl, writePacketData],
      by simp [iteration, hl, writePacketData, isResponse]⟩
  | some ntp =>
    by_cases hm : ntp.Mode = 4
    · cases hs : w.serialize opts (packet.setNTP (patch ntp (w.tf s.tfCalls))) with
      | error e =>
        right
        exact ⟨ntp, e, rfl, hm, hs, by simp [forwardedForm, hl, hm, hs],
          by simp [iteration, hl, hm, hs]⟩
      | ok b =>
        left
        exact ⟨b, by simp [forwardedForm, hl, hm, hs],
          by simp [iteration, hl, hm, hs, writePacketData],
          by simp [iteration, hl, hm, hs, writePacketData],
          by simp [iteration, hl, hm, hs, writePacketData],
          by simp [iteration, hl, hm, hs, writePacketData, isResponse]⟩
    · left
      exact ⟨packet.data, by simp [forwardedForm, hl, hm],
        by simp [iteration, hl, hm, writePacketData],
        by simp [iteration, hl, hm, writePacketData],
        by simp [iteration, hl, hm, writePacketData],
        by simp [iteration, hl, hm, writePacketData, isResponse]⟩

theorem loop_cons (w : World) (packet : Packet) (rest : List Packet) (s : State) :
    loop w (packet :: rest) s =
      match iteration w { s with reads := s.reads + 1 } packet with
      | (some err, s) => (err, s)
      | (none, s) => loop w rest s := rfl

theorem SerializeLayers_opts_ok (ls : List Layer) : ∃ b, SerializeLayers opts ls = Except.ok b := by
  induction ls with
  | nil => exact ⟨[], rfl⟩
  | cons l rest ih =>
    obtain ⟨b, hb⟩ := ih
    simp only [SerializeLayers, hb]
    cases l <;> simp [Layer.SerializeTo, opts]

theorem loop_spec (w : World) (hser : w.serialize = SerializePacket) (ps : List Packet)
    (s : State) :
    ∃ outs : List Bytes,
      (loop w ps s).2.writes = s.writes ++ outs ∧
      (∀ i p b, ps[i]? = some p → outs[i]? = some b →
        forwardedForm w (w.tf (s.tfCalls + ((ps.take i).filter isResponse).length)) p
          = some b) ∧
      ((outs.length = ps.length ∧
          (∀ i b, outs[i]? = some b → w.sink (s.writes.length + i) b = none) ∧
          (loop w ps s).1 = w.sourceErr ∧
          (loop w ps s).2.reads = s.reads + ps.length + 1 ∧
          (loop w ps s).2.tfCalls = s.tfCalls + (ps.filter isResponse).length) ∨
        (∃ k b, k < ps.length ∧ outs.length = k + 1 ∧ outs[k]? = some b ∧
          w.sink (s.writes.length + k) b = some (loop w ps s).1 ∧
          (∀ i c, i < k → outs[i]? = some c → w.sink (s.writes.length + i) c = none) ∧
          (loop w ps s).2.reads = s.reads + k + 1)) := by
  induction ps generalizing s with
  | nil =>
    refine ⟨[], (List.append_nil _).symm, ?_, Or.inl ⟨rfl, ?_, rfl, rfl, rfl⟩⟩
    · intro i p b hp
      simp at hp
    · intro i b hb
      simp at hb
  | cons p rest ih =>
    rw [loop_cons]
    rcases iteration_cases w { s with reads := s.reads + 1 } p with
      ⟨data, hf, h1, h2, h3, h4⟩ | ⟨ntp, e, hl, hm, hs, -, -⟩
    · replace hf : forwardedForm w (w.tf s.tfCalls) p = some data := hf
      rcases hit : iteration w { s with reads := s.reads + 1 } p with ⟨_ | err, s2⟩
      · rw [hit] at h1 h2 h3 h4
        replace h1 : w.sink s.writes.length data = none := h1.symm
        replace h2 : s2.writes = s.writes ++ [data] := h2
        replace h3 : s2.reads = s.reads + 1 := h3
        replace h4 : s2.tfCalls = s.tfCalls + (if isResponse p then 1 else 0) := h4
        obtain ⟨outs, hw, hfw, hcase⟩ := ih s2
        have hlen : s2.writes.length = s.writes.length + 1 := by
          rw [h2, List.length_append, List.length_singleton]
        refine ⟨data :: outs, ?_, ?_, ?_⟩
        · show (loop w rest s2).2.writes = _
          rw [hw, h2, List.append_assoc]
          rfl
        · intro i q b hq hb
          cases i with
          | zero =>
            simp only [List.getElem?_cons_zero, Option.some.injEq] at hq hb
            subst hq
            subst hb
            simpa using hf
          | succ i =>
            simp only [List.getElem?_cons_succ] at hq hb
            have h := hfw i q b hq hb
            have e : s.tfCalls + ((List.take (i + 1) (p :: rest)).filter isResponse).length
                = s2.tfCalls + ((List.take i rest).filter isResponse).length := by
              rw [h4, List.take_succ_cons, List.filter_cons]
              split_ifs
              · simp only [List.length_cons]; omega
              · omega
            rw [e]
            exact h
        · rcases hcase with ⟨c1, c2, c3, c4, c5⟩ | ⟨k, b, c1, c2, c3, c4, c5, c6⟩
          · left
            refine ⟨by simp only [List.length_cons, c1], ?_, c3, ?_, ?_⟩
            · intro i b hb
              cases i with
              | zero =>
                simp only [List.getElem?_cons_zero, Option.some.injEq] at hb
                subst hb
                exact h1
              | succ i =>
                simp only [List.getElem?_cons_succ] at hb
                have h := c2 i b hb
                rw [hlen] at h
                rw [← h]
                congr 1
                omega
            · show (loop w rest s2).2.reads = _
              rw [c4, h3, List.length_cons]
              omega
            · show (loop w rest s2).2.tfCalls = _
              rw [c5, h4, List.filter_cons]
              split_ifs
              · simp only [List.length_cons]; omega
              · omega
          · right
            refine ⟨k + 1, b, by simp only [List.length_cons]; omega,
              by simp only [List.length_cons, c2], by simpa using c3, ?_, ?_, ?_⟩
            · show w.sink (s.writes.length + (k + 1)) b = some (loop w rest s2).1
              rw [← c4, hlen]
              congr 1
              omega
            · intro i c hi hc
              cases i with
              | zero =>
                simp only [List.getElem?_cons_zero, Option.some.injEq] at hc
                subst hc
                exact h1
              | succ i =>
                simp only [List.getElem?_cons_succ] at hc
                have h := c5 i c (by omega) hc
                rw [hlen] at h
                rw [← h]
                congr 1
                omega
            · show (loop w rest s2).2.reads = _
              rw [c6, h3]
              omega
      · rw [hit] at h1 h2 h3
        replace h1 : w.sink s.writes.length data = some err := h1.symm
        replace h2 : s2.writes = s.writes ++ [data] := h2
        replace h3 : s2.reads = s.reads + 1 := h3
        refine ⟨[data], h2, ?_, Or.inr ⟨0, data, by simp, rfl, rfl, h1, ?_, h3⟩⟩
        · intro i q b hq hb
          cases i with
          | zero =>
            simp only [List.getElem?_cons_zero, Option.some.injEq] at hq hb
            subst hq
            subst hb
            simpa using hf
          | succ i => simp at hb
        · intro i c hi
          omega
    · rw [hser] at hs
      obtain ⟨b, hb⟩ := SerializeLayers_opts_ok (p.setNTP (patch ntp (w.tf s.tfCalls))).layers
      simp only [SerializePacket] at hs
      rw [hb] at hs
      cases hs

/-- C8: with the serializer of the packet library, a run of SpoofNTPResponse
ends in one of two ways and no other: NextPacket fails after every packet was
read and written, and its error is returned; or a call of WritePacketData
fails, it is the last call made, no further packet is read, and its error is
returned.  Patching and re-serialising a mode-4 packet end no run. -/
theorem SpoofNTPResponse_error (w : World) (hser : w.serialize = SerializePacket) :
    (((SpoofNTPResponse w).1 = w.sourceErr ∧
          (SpoofNTPResponse w).2.reads = w.packets.length + 1 ∧
          (SpoofNTPResponse w).2.writes.length = w.packets.length ∧
          (∀ i b, (SpoofNTPResponse w).2.writes[i]? = some b → w.sink i b = none)) ∨
        (∃ k b, k < w.packets.length ∧
          (SpoofNTPResponse w).2.reads = k + 1 ∧
          (SpoofNTPResponse w).2.writes.length = k + 1 ∧
          (SpoofNTPResponse w).2.writes[k]? = some b ∧
          w.sink k b = some (SpoofNTPResponse w).1 ∧
          (∀ i c, i < k → (SpoofNTPResponse w).2.writes[i]? = some c → w.sink i c = none))) ∧
      (∀ i b e, (SpoofNTPResponse w).2.writes[i]? = some b → w.sink i b = some e →
        (SpoofNTPResponse w).1 = e ∧ (SpoofNTPResponse w).2.writes.length = i + 1 ∧
          (SpoofNTPResponse w).2.reads = i + 1) ∧
      ((∀ i b, (SpoofNTPResponse w).2.writes[i]? = some b → w.sink i b = none) →
        (SpoofNTPResponse w).1 = w.sourceErr ∧
          (SpoofNTPResponse w).2.reads = w.packets.length + 1 ∧
          (SpoofNTPResponse w).2.writes.length = w.packets.length) := by
  obtain ⟨outs, hw, -, hcase⟩ :=
    loop_spec w hser w.packets { reads := 0, tfCalls := 0, writes := [] }
  simp only [List.nil_append, List.length_nil, Nat.zero_add] at hw hcase
  have hw2 : (SpoofNTPResponse w).2.writes = outs := hw
  have hmain : ((SpoofNTPResponse w).1 = w.sourceErr ∧
          (SpoofNTPResponse w).2.reads = w.packets.length + 1 ∧
          (SpoofNTPResponse w).2.writes.length = w.packets.length ∧
          (∀ i b, (SpoofNTPResponse w).2.writes[i]? = some b → w.sink i b = none)) ∨
        (∃ k b, k < w.packets.length ∧
          (SpoofNTPResponse w).2.reads = k + 1 ∧
          (SpoofNTPResponse w).2.writes.length = k + 1 ∧
          (SpoofNTPResponse w).2.writes[k]? = some b ∧
          w.sink k b = some (SpoofNTPResponse w).1 ∧
          (∀ i c, i < k → (SpoofNTPResponse w).2.writes[i]? = some c → w.sink i c = none)) := by
    rw [hw2]
    rcases hcase with ⟨c1, c2, c3, c4, -⟩ | ⟨k, b, c1, c2, c3, c4, c5, c6⟩
    · exact Or.inl ⟨c3, c4, c1, c2⟩
    · exact Or.inr ⟨k, b, c1, c6, c2, c3, c4, c5⟩
  refine ⟨hmain, ?_, ?_⟩
  · intro i b e hb he
    rcases hmain with ⟨-, -, -, d4⟩ | ⟨k, c, d1, d2, d3, d4, d5, d6⟩
    · rw [d4 i b hb] at he
      cases he
    · rcases Nat.lt_trichotomy i k with h | h | h
      · rw [d6 i b h hb] at he
        cases he
      · subst h
        rw [hb] at d4
        cases d4
        rw [he] at d5
        cases d5
        exact ⟨rfl, d3, d2⟩
      · have hnone : (SpoofNTPResponse w).2.writes[i]? = none :=
          List.getElem?_eq_none (by omega)
        rw [hnone] at hb
        cases hb
  · intro hall
    rcases hmain with ⟨d1, d2, d3, -⟩ | ⟨k, c, d1, d2, d3, d4, d5, d6⟩
    · exact ⟨d1, d2, d3⟩
    · rw [hall k c d4] at d5
      cases d5

/-- C8 (witness): a sink that fails on its second write ends the run with its
error after two reads and two writes, although four packets were on offer. -/
theorem SpoofNTPResponse_error_witness :
    (SpoofNTPResponse refusingWorld).1 = ⟨9⟩ ∧
      (SpoofNTPResponse refusingWorld).2.writes.length = 1 + 1 ∧
      (SpoofNTPResponse refusingWorld).2.reads = 1 + 1 :=
  (SpoofNTPResponse_error refusingWorld rfl).2.1 1 requestPacket.data ⟨9⟩
    (by decide) (by decide)

/-- C9: with the serializer of the packet library and a sink that never fails,
a source that delivers N packets before it fails has exactly N packets written,
and the i-th packet written is the forwarded form of the i-th packet received:
its bytes unmodified, or its patched form for the instant the call of tf made
for it returned, tf being called once for each mode-4 response in order. -/
theorem SpoofNTPResponse_order (w : World) (hser : w.serialize = SerializePacket)
    (hsink : ∀ k b, w.sink k b = none) :
    (SpoofNTPResponse w).1 = w.sourceErr ∧
      (SpoofNTPResponse w).2.reads = w.packets.length + 1 ∧
      (SpoofNTPResponse w).2.tfCalls = (w.packets.filter isResponse).length ∧
      (SpoofNTPResponse w).2.writes.length = w.packets.length ∧
      (∀ i p, w.packets[i]? = some p →
        (SpoofNTPResponse w).2.writes[i]?
          = forwardedForm w (w.tf ((w.packets.take i).filter isResponse).length) p ∧
        (isResponse p = false → (SpoofNTPResponse w).2.writes[i]? = some p.data) ∧
        (∀ ntp, p.ntpLayer = some ntp → ntp.Mode = 4 →
          ∃ b, (SpoofNTPResponse w).2.writes[i]? = some b ∧
            SerializePacket opts
              (p.setNTP (patch ntp (w.tf ((w.packets.take i).filter isResponse).length)))
              = Except.ok b)) := by
  obtain ⟨outs, hw, hfw, hcase⟩ :=
    loop_spec w hser w.packets { reads := 0, tfCalls := 0, writes := [] }
  simp only [List.nil_append, List.length_nil, Nat.zero_add] at hw hfw hcase
  have hw2 : (SpoofNTPResponse w).2.writes = outs := hw
  rcases hcase with ⟨c1, -, c3, c4, c5⟩ | ⟨k, b, -, -, -, c4, -, -⟩
  · rw [hw2]
    refine ⟨c3, c4, c5, c1, ?_⟩
    intro i p hp
    have hi : i < outs.length := by
      rw [c1]
      by_contra hge
      rw [List.getElem?_eq_none (by omega)] at hp
      cases hp
    have hb : outs[i]? = some (outs[i]) := List.getElem?_eq_getElem hi
    have hf := hfw i p _ hp hb
    refine ⟨by rw [hb, hf], ?_, ?_⟩
    · intro hr
      rw [hb, ← hf]
      cases hl : p.ntpLayer with
      | none => simp [forwardedForm, hl]
      | some ntp =>
        have hm : ¬ ntp.Mode = 4 := by
          intro hm
          simp [isResponse, hl, hm] at hr
        simp [forwardedForm, hl, hm]
    · intro ntp hl hm
      refine ⟨outs[i], hb, ?_⟩
      rw [← hser]
      cases hs : w.serialize opts
          (p.setNTP (patch ntp (w.tf ((w.packets.take i).filter isResponse).length))) with
      | error e => simp [forwardedForm, hl, hm, hs] at hf
      | ok b2 =>
        simp [forwardedForm, hl, hm, hs] at hf
        rw [hf]
  · rw [hsink] at c4
    cases c4

/-- C9 (witness): of four packets, two of them responses, four are written in
the order received; the second response, the third packet, is patched for the
instant the second call of tf returned, which differs from the first. -/
theorem SpoofNTPResponse_order_witness :
    (SpoofNTPResponse mixedWorld).2.writes.length = mixedWorld.packets.length ∧
      (SpoofNTPResponse mixedWorld).2.writes[2]?
        = forwardedForm mixedWorld (mixedWorld.tf 1) responsePacket ∧
      (SpoofNTPResponse mixedWorld).2.writes[0]?
        = forwardedForm mixedWorld (mixedWorld.tf 0) responsePacket ∧
      (SpoofNTPResponse mixedWorld).2.writes[1]? = some requestPacket.data ∧
      (SpoofNTPResponse mixedWorld).2.writes[3]? = some plainPacket.data ∧
      (SpoofNTPResponse mixedWorld).2.writes[0]? ≠ (SpoofNTPResponse mixedWorld).2.writes[2]? :=
  have h := SpoofNTPResponse_order mixedWorld rfl (fun _ _ => rfl)
  ⟨h.2.2.2.1, (h.2.2.2.2 2 responsePacket (by decide)).1,
    (h.2.2.2.2 0 responsePacket (by decide)).1,
    (h.2.2.2.2 1 requestPacket (by decide)).2.1 (by decide),
    (h.2.2.2.2 3 plainPacket (by decide)).2.1 (by decide), by decide⟩

/-! ## Checksums of the forwarded packet -/


theorem beBytes_length (n x : Nat) : (beBytes n x).length = n := by
  induction n generalizing x with
  | zero => rfl
  | succ n ih => simp [beBytes, ih]

theorem IPv4_header_length (ip : IPv4) (c : Nat) (hs : ip.SrcIP.length = 4)
    (hd : ip.DstIP.length = 4) : (ip.header c).length = 20 := by
  simp [IPv4.header, beBytes_length, hs, hd]

theorem UDP_header_length (u : UDP) (c : Nat) : (u.header c).length = 8 := by
  simp [UDP.header, beBytes_length]

/-- C4 (counterexample): in the end-to-end scenario the received response has
valid IPv4 and UDP checksums, and the packet the loop writes carries the
received UDP checksum bytes, which do not verify for the patched payload. -/
theorem forwarded_udp_checksum_stale :
    responseNTP.Mode = 4 ∧
      SerializePacket opts responsePacket = Except.ok responsePacket.data ∧
      ipChecksumValid responsePacket.data ∧ udpChecksumValid responsePacket.data ∧
      (SpoofNTPResponse scenarioWorld).2.writes.length = 1 ∧
      (∀ out ∈ (SpoofNTPResponse scenarioWorld).2.writes,
        (out.drop 26).take 2 = (responsePacket.data.drop 26).take 2 ∧
          out ≠ responsePacket.data ∧ ¬ udpChecksumValid out) := by
  decide

/-- C4 (amended): a mode-4 response made of an IPv4, a UDP and an NTP layer is
re-serialised with ComputeChecksums false: the bytes written are the headers
built from the decoded fields, the decoded Checksum fields included, followed
by the patched NTP message.  Its first 28 bytes, the IPv4 and UDP headers with
both checksums, are those received, so the IPv4 header checksum stays valid,
and the UDP checksum is not recomputed for the patched payload. -/
theorem checksums_carried_over (w : World) (s : State) (data : Bytes) (ip : IPv4) (u : UDP)
    (n : NTP) (hw : w.serialize = SerializePacket) (hm : n.Mode = 4)
    (hsrc : ip.SrcIP.length = 4) (hdst : ip.DstIP.length = 4)
    (hdata : SerializePacket opts ⟨data, [Layer.ipv4 ip, Layer.udp u, Layer.ntp n]⟩
      = Except.ok data) :
    ∃ out, (iteration w s ⟨data, [Layer.ipv4 ip, Layer.udp u, Layer.ntp n]⟩).2.writes
        = s.writes ++ [out] ∧
      out = ip.header ip.Checksum ++ (u.header u.Checksum ++
        ((patch n (w.tf s.tfCalls)).header ++ n.ExtensionBytes)) ∧
      out.take 28 = data.take 28 ∧
      (ipChecksumValid data → ipChecksumValid out) := by
  have h20 := IPv4_header_length ip ip.Checksum hsrc hdst
  have h8 := UDP_header_length u u.Checksum
  have hd : data = ip.header ip.Checksum ++ (u.header u.Checksum ++
      (n.header ++ n.ExtensionBytes)) := by
    simp [SerializePacket, SerializeLayers, Layer.SerializeTo, opts] at hdata
    exact hdata.symm
  have htake : ∀ x : Bytes,
      (ip.header ip.Checksum ++ (u.header u.Checksum ++ x)).take 28
        = ip.header ip.Checksum ++ u.header u.Checksum := by
    intro x
    rw [← List.append_assoc]
    exact List.take_left' (by rw [List.length_append, h20, h8])
  have hout : ∀ x : Bytes,
      (ip.header ip.Checksum ++ (u.header u.Checksum ++ x)).take 20
        = ip.header ip.Checksum := by
    intro x
    exact List.take_left' h20
  refine ⟨_, ?_, rfl, ?_, ?_⟩
  · simp [iteration, Packet.ntpLayer, findNTP, hm, hw, SerializePacket, SerializeLayers,
      Layer.SerializeTo, opts, Packet.setNTP, replaceNTP, writePacketData, patch]
  · rw [hd, htake, htake]
  · intro hv
    unfold ipChecksumValid at hv ⊢
    rw [hd, hout] at hv
    rw [hout]
    exact hv

/-- C4 (witness): the scenario response is forwarded with its first 28 bytes,
both checksums among them, as received. -/
theorem checksums_carried_over_witness :
    ∃ out, (iteration scenarioWorld ⟨1, 0, []⟩ responsePacket).2.writes = [] ++ [out] ∧
      out.take 28 = responsePacket.data.take 28 ∧ ipChecksumValid out := by
  obtain ⟨out, h1, -, h3, h4⟩ :=
    checksums_carried_over scenarioWorld ⟨1, 0, []⟩ responsePacket.data responseIPv4
      responseUDP responseNTP rfl (by decide) (by decide) (by decide) (by decide)
  exact ⟨out, h1, h3, h4 (by decide)⟩

end Evilclock
